import Mathlib

/-!
Verification development for the Smart Shopping List core
(`shopping_list.py`): offices (requesters) collecting item demand,
stores (suppliers) with per-item prices, and the aggregator that merges
demand and selects the cheapest fully-feasible store.

Python dictionaries are modelled as insertion-ordered association lists
(`Dict`): assignment to an existing key updates the value in place, and
assignment to a new key appends the entry at the end, exactly mirroring
dict insertion-order semantics.  Python `float` prices are modelled by
`PyFloat`: an exact rational for finite values, plus the positive
infinity sentinel that `get_price` returns for unsold items (quantities
are Python `int`, modelled by `Int`).
-/

/-- Model of a Python `float` as used by the program: a finite value
(exact rational, since the spec prescribes plain decimal arithmetic)
or the positive-infinity sentinel `float('inf')`. -/
inductive PyFloat where
  | fin (q : ℚ) : PyFloat
  | inf : PyFloat
deriving DecidableEq, Repr

namespace PyFloat

/-- The strict `<` comparison of Python floats, restricted to the values
the program can produce (finite values and `+inf`). -/
def lt : PyFloat → PyFloat → Prop
  | fin a, fin b => a < b
  | fin _, inf => True
  | inf, _ => False

instance decLt : (a b : PyFloat) → Decidable (lt a b)
  | fin a, fin b => inferInstanceAs (Decidable (a < b))
  | fin _, inf => isTrue trivial
  | inf, fin _ => isFalse fun h => h
  | inf, inf => isFalse fun h => h

end PyFloat

/-- Insertion-ordered association list modelling a Python `dict`. -/
abbrev Dict (α : Type) := List (String × α)

/-- `d[k] = v` on a Python dict: update in place if the key is present,
otherwise append the new entry at the end.  (Generic in the key type so
that it also serves the heap model, whose cells are keyed by `Nat`.) -/
def setEntry {κ α : Type} [BEq κ] (m : List (κ × α)) (k : κ) (v : α) :
    List (κ × α) :=
  match m with
  | [] => [(k, v)]
  | (k1, v1) :: rest =>
      if k1 == k then (k1, v) :: rest else (k1, v1) :: setEntry rest k v

/-- `d[k] += q` on a Python `defaultdict(int)`: add `q` to the stored
value in place if the key is present, otherwise append `(k, q)`
(default value `0`, plus `q`) at the end. -/
def addEntry (m : Dict Int) (k : String) (q : Int) : Dict Int :=
  match m with
  | [] => [(k, q)]
  | (k1, v1) :: rest =>
      if k1 == k then (k1, v1 + q) :: rest else (k1, v1) :: addEntry rest k q

/-- `d.get(k, 0)`: lookup with default `0` (the `defaultdict(int)` view
of a demand mapping). -/
def lookupD (m : Dict Int) (k : String) : Int :=
  (List.lookup k m).getD 0

/-- `Office`: a requester with a name and a demand mapping
`item -> quantity` (`self.supplies`, a `defaultdict(int)`). -/
structure Office where
  name : String
  supplies : Dict Int
deriving DecidableEq, Repr

/-- `Office(name)`: fresh office with empty demand. -/
def Office.mk0 (name : String) : Office :=
  ⟨name, []⟩

/-- `Office.add_item(item, quantity=1)`: `self.supplies[item] += quantity`. -/
def Office.add_item (o : Office) (item : String) (quantity : Int := 1) : Office :=
  { o with supplies := addEntry o.supplies item quantity }

/-- `Office.get_supplies()`: `return dict(self.supplies)` — a snapshot
of the current demand mapping. -/
def Office.get_supplies (o : Office) : Dict Int :=
  o.supplies

/-- `Store`: a supplier with a name and a price mapping
`item -> unit price` (`self.prices`). -/
structure Store where
  name : String
  prices : Dict PyFloat
deriving DecidableEq, Repr

/-- `Store(name)`: fresh store with empty price mapping. -/
def Store.mk0 (name : String) : Store :=
  ⟨name, []⟩

/-- `Store.set_price(item, price)`: `self.prices[item] = price`. -/
def Store.set_price (s : Store) (item : String) (price : PyFloat) : Store :=
  { s with prices := setEntry s.prices item price }

/-- `Store.get_price(item)`: `return self.prices.get(item, float('inf'))`. -/
def Store.get_price (s : Store) (item : String) : PyFloat :=
  (List.lookup item s.prices).getD PyFloat.inf

/-- `SmartShoppingList`: the aggregator, holding the insertion-ordered
lists of offices and stores. -/
structure SmartShoppingList where
  offices : List Office
  stores : List Store
deriving DecidableEq, Repr

namespace SmartShoppingList

/-- `SmartShoppingList()`: fresh aggregator with no offices and no stores. -/
def mk0 : SmartShoppingList :=
  ⟨[], []⟩

/-- `add_office(office)`: `self.offices.append(office)`. -/
def add_office (s : SmartShoppingList) (o : Office) : SmartShoppingList :=
  { s with offices := s.offices ++ [o] }

/-- `add_store(store)`: `self.stores.append(store)`. -/
def add_store (s : SmartShoppingList) (st : Store) : SmartShoppingList :=
  { s with stores := s.stores ++ [st] }

/-- `merge_supplies()`: fold every `(item, quantity)` of every office's
demand snapshot into one `defaultdict(int)`, in office insertion order. -/
def merge_supplies (s : SmartShoppingList) : Dict Int :=
  s.offices.foldl
    (fun merged o =>
      o.get_supplies.foldl (fun m p => addEntry m p.1 p.2) merged)
    []

/-- One iteration of the loop body of `calculate_store_total`: look the
item up; on the infinity sentinel append it to `unavailable`, otherwise
add `price * quantity` to the running total. -/
def calcStep (store : Store) (acc : ℚ × List String) (p : String × Int) :
    ℚ × List String :=
  match store.get_price p.1 with
  | PyFloat.inf => (acc.1, acc.2 ++ [p.1])
  | PyFloat.fin price => (acc.1 + price * (p.2 : ℚ), acc.2)

/-- `calculate_store_total(store, shopping_list)`: iterate the demand
mapping, accumulating the total over priced items and the ordered list
of unavailable items. -/
def calculate_store_total (store : Store) (shopping_list : Dict Int) :
    ℚ × List String :=
  shopping_list.foldl (calcStep store) (0, [])

/-- One iteration of the loop of `find_cheapest_store`: a store replaces
the current best exactly when its `unavailable` list is empty and its
total is strictly below the current cheapest total. -/
def cheapStep (merged : Dict Int) (acc : Option Store × PyFloat) (store : Store) :
    Option Store × PyFloat :=
  let r := calculate_store_total store merged
  if r.2 = [] ∧ PyFloat.lt (PyFloat.fin r.1) acc.2 then
    (some store, PyFloat.fin r.1)
  else acc

/-- `find_cheapest_store()`: merge the demand; return early on empty
demand or no stores; otherwise scan the stores in insertion order
keeping the strictly-cheapest fully-feasible one. -/
def find_cheapest_store (s : SmartShoppingList) :
    Option Store × PyFloat × Dict Int :=
  let merged := s.merge_supplies
  if merged = [] then
    (none, PyFloat.fin 0, [])
  else if s.stores = [] then
    (none, PyFloat.fin 0, merged)
  else
    let r := s.stores.foldl (cheapStep merged) (none, PyFloat.inf)
    (r.1, r.2, merged)

/-- One comparison entry: the Python dict with keys `total` and
`unavailable_items` built by `get_price_comparison`. -/
structure CompEntry where
  total : PyFloat
  unavailable_items : List String
deriving DecidableEq, Repr

/-- `get_price_comparison()`: for every store, in insertion order,
evaluate it against the merged demand and write the entry into a dict
keyed by the store's name (`comparison[store.name] = ...`). -/
def get_price_comparison (s : SmartShoppingList) : Dict CompEntry :=
  let merged := s.merge_supplies
  s.stores.foldl
    (fun comparison store =>
      let r := calculate_store_total store merged
      setEntry comparison store.name
        ⟨if r.2 = [] then PyFloat.fin r.1 else PyFloat.inf, r.2⟩)
    []

end SmartShoppingList

/-- The total contribution of key `k` among the entries of `l`
(every entry with first component `k` counts). -/
def sumKey (l : Dict Int) (k : String) : Int :=
  (l.map (fun p => if p.1 = k then p.2 else 0)).sum

/-- The finite value carried by a `PyFloat` (junk value `0` on the
infinity sentinel, which the callers below never hit). -/
def finVal : PyFloat → ℚ
  | PyFloat.fin q => q
  | PyFloat.inf => 0

/-- Stated from the spec: the demanded items whose price lookup yields
the infinity sentinel, in the order they occur in the demand mapping. -/
def specMissing (store : Store) (sl : Dict Int) : List String :=
  (sl.filter fun p => store.get_price p.1 == PyFloat.inf).map Prod.fst

/-- Stated from the spec: the sum of `price * quantity` over exactly the
demanded items whose price lookup does not yield the sentinel. -/
def specTotal (store : Store) (sl : Dict Int) : ℚ :=
  ((sl.filter fun p => !(store.get_price p.1 == PyFloat.inf)).map
    fun p => finVal (store.get_price p.1) * (p.2 : ℚ)).sum

/-- A store is feasible for a demand mapping when the `unavailable`
list computed by `calculate_store_total` is empty (the only stores the
selection loop considers). -/
def feasible (merged : Dict Int) (st : Store) : Prop :=
  (SmartShoppingList.calculate_store_total st merged).2 = []

instance (merged : Dict Int) (st : Store) : Decidable (feasible merged st) := by
  unfold feasible; infer_instance

/-- The total `calculate_store_total` computes for a store on a demand
mapping. -/
def storeTotal (merged : Dict Int) (st : Store) : ℚ :=
  (SmartShoppingList.calculate_store_total st merged).1

/-- Invariant of the selection loop of `find_cheapest_store` after the
stores in `l` have been scanned: either no feasible store has been seen
yet, or the accumulator holds the earliest feasible store whose total is
strictly below every earlier feasible total and at most every later
feasible total seen so far. -/
def Good (merged : Dict Int) (l : List Store) : Option Store × PyFloat → Prop
  | (none, PyFloat.inf) => ∀ st ∈ l, ¬ feasible merged st
  | (some b, PyFloat.fin tb) =>
      feasible merged b ∧ tb = storeTotal merged b ∧
      ∃ l1 l2, l = l1 ++ b :: l2 ∧
        (∀ st ∈ l1, feasible merged st →
          storeTotal merged b < storeTotal merged st) ∧
        (∀ st ∈ l2, feasible merged st →
          storeTotal merged b ≤ storeTotal merged st)
  | _ => False

/-- The comparison entry `get_price_comparison` computes for one store:
the real total when the store misses nothing, the infinity sentinel
otherwise, together with the missing-item list. -/
def compEntryOf (merged : Dict Int) (st : Store) :
    SmartShoppingList.CompEntry :=
  let r := SmartShoppingList.calculate_store_total st merged
  ⟨if r.2 = [] then PyFloat.fin r.1 else PyFloat.inf, r.2⟩

/-! ### Heap model of Python dict objects

`Office.get_supplies` returns `dict(self.supplies)`: a freshly
allocated dict object whose entries are copied from the office's own
dict.  Value semantics cannot express object identity, so the snapshot
property is verified in a small heap model: dict objects are cells of a
`DictHeap` addressed by `Nat` ids, an office holds the id of its
supplies dict, and `dict(...)` allocates a new cell. -/

structure DictHeap where
  fresh : Nat
  cells : List (Nat × Dict Int)
deriving DecidableEq, Repr

namespace DictHeap

/-- Dereference a dict object (empty dict as the junk value for a
dangling id, which well-formed programs never produce). -/
def read (h : DictHeap) (r : Nat) : Dict Int :=
  (List.lookup r h.cells).getD []

/-- Overwrite the contents of the dict object at `r`. -/
def write (h : DictHeap) (r : Nat) (m : Dict Int) : DictHeap :=
  ⟨h.fresh, setEntry h.cells r m⟩

/-- Allocate a new dict object with contents `m`, returning its id. -/
def alloc (h : DictHeap) (m : Dict Int) : Nat × DictHeap :=
  (h.fresh, ⟨h.fresh + 1, h.cells ++ [(h.fresh, m)]⟩)

/-- Well-formed heap: every allocated id is below the fresh counter. -/
def WF (h : DictHeap) : Prop := ∀ c ∈ h.cells, c.1 < h.fresh

instance (h : DictHeap) : Decidable h.WF := by
  unfold WF; infer_instance

/-- `d[k] = v` performed on the dict object at `r` (the way client code
would mutate a mapping returned to it). -/
def setItem (h : DictHeap) (r : Nat) (k : String) (v : Int) : DictHeap :=
  h.write r (setEntry (h.read r) k v)

end DictHeap

/-- An office in the heap model: `supplies` holds the id of its dict
object instead of the dict value. -/
structure OfficeRef where
  name : String
  supplies : Nat
deriving DecidableEq, Repr

/-- `Office.add_item` in the heap model: mutates the office's own dict
object in place. -/
def OfficeRef.add_itemH (o : OfficeRef) (h : DictHeap) (item : String)
    (q : Int) : DictHeap :=
  h.write o.supplies (addEntry (h.read o.supplies) item q)

/-- `Office.get_supplies` in the heap model: `dict(self.supplies)`
allocates a fresh dict object holding a copy of the current entries and
returns the new object's id. -/
def OfficeRef.get_suppliesH (o : OfficeRef) (h : DictHeap) :
    Nat × DictHeap :=
  h.alloc (h.read o.supplies)

/-! ### Concrete fixtures (all built through the source API) -/

/-- The first requester of the spec's worked example:
Pens 10, Paper 5. -/
def exOffice1 : Office :=
  ((Office.mk0 "Office A").add_item "Pens" 10).add_item "Paper" 5

/-- The second requester of the spec's worked example:
Pens 5, Folders 10. -/
def exOffice2 : Office :=
  ((Office.mk0 "Office B").add_item "Pens" 5).add_item "Folders" 10

/-- StoreA of the spec's worked example: total 45 on the merged demand. -/
def exStoreA : Store :=
  (((Store.mk0 "StoreA").set_price "Pens" (PyFloat.fin 1)).set_price
      "Paper" (PyFloat.fin 5)).set_price "Folders" (PyFloat.fin (1/2))

/-- StoreB of the spec's worked example: total 50 on the merged demand. -/
def exStoreB : Store :=
  (((Store.mk0 "StoreB").set_price "Pens" (PyFloat.fin (3/2))).set_price
      "Paper" (PyFloat.fin 4)).set_price "Folders" (PyFloat.fin (3/4))

/-- A store that only prices Pens (infeasible against any demand that
contains another item). -/
def exStoreP : Store :=
  (Store.mk0 "PensOnly").set_price "Pens" (PyFloat.fin 1)

/-- The aggregator of the spec's worked example. -/
def exList : SmartShoppingList :=
  (((SmartShoppingList.mk0.add_office exOffice1).add_office
      exOffice2).add_store exStoreA).add_store exStoreB

/-- Demand but no registered stores. -/
def exNoStores : SmartShoppingList :=
  SmartShoppingList.mk0.add_office exOffice1

/-- Demand and one store that cannot cover it. -/
def exInfeasible : SmartShoppingList :=
  (SmartShoppingList.mk0.add_office exOffice1).add_store exStoreP

/-- An office holding a negative quantity, accepted without error. -/
def exNegOffice : Office :=
  (Office.mk0 "Office N").add_item "Pens" (-3)

/-- A store pricing Pens at 2, so the negative demand yields a negative
total. -/
def exNegStore : Store :=
  (Store.mk0 "StoreN").set_price "Pens" (PyFloat.fin 2)

/-- Aggregator whose merged demand and cheapest total are negative. -/
def exNegList : SmartShoppingList :=
  (SmartShoppingList.mk0.add_office exNegOffice).add_store exNegStore

/-- An office that requested an item with quantity `0`. -/
def exZeroOffice : Office :=
  (Office.mk0 "Office Z").add_item "Gadget" 0

/-- Aggregator with a zero-quantity item and a store that does not
price that item. -/
def exZeroList : SmartShoppingList :=
  (SmartShoppingList.mk0.add_office exZeroOffice).add_store exStoreP

/-- A store whose stored price for an item is the infinity sentinel
itself (allowed by `set_price`, which accepts any value). -/
def exInfPriceStore : Store :=
  (Store.mk0 "StoreInf").set_price "Pens" PyFloat.inf

/-- A two-cell example heap: ids 0 and 1 are allocated. -/
def exHeap : DictHeap :=
  ⟨2, [(0, [("Pens", 2)]), (1, [("Paper", 1)])]⟩

/-- An office whose supplies dict is the heap cell with id 0. -/
def exOfficeRef : OfficeRef :=
  ⟨"Office H", 0⟩

/-! ### Association-list (Python dict) lemmas -/

theorem lookup_setEntry {κ α : Type} [BEq κ] [LawfulBEq κ] [DecidableEq κ]
    (m : List (κ × α)) (k k1 : κ) (v : α) :
    List.lookup k1 (setEntry m k v) =
      if k = k1 then some v else List.lookup k1 m := by
  induction m with
  | nil =>
      by_cases h : k = k1
      · subst h; simp [setEntry, List.lookup_cons]
      · have hb : (k1 == k) = false := beq_eq_false_iff_ne.2 (Ne.symm h)
        simp [setEntry, List.lookup_cons, hb, h]
  | cons p rest ih =>
      obtain ⟨k2, v2⟩ := p
      by_cases h2 : k2 = k
      · subst h2
        by_cases h1 : k2 = k1
        · subst h1; simp [setEntry, List.lookup_cons]
        · have hb : (k1 == k2) = false := beq_eq_false_iff_ne.2 (Ne.symm h1)
          simp [setEntry, List.lookup_cons, hb, h1]
      · have hb2 : (k2 == k) = false := beq_eq_false_iff_ne.2 h2
        by_cases h1 : k1 = k2
        · subst h1
          have hne : ¬ k = k1 := fun e => h2 e.symm
          simp [setEntry, List.lookup_cons, hb2, hne]
        · have hb1 : (k1 == k2) = false := beq_eq_false_iff_ne.2 h1
          simp [setEntry, List.lookup_cons, hb2, hb1, ih]

theorem lookupD_addEntry (m : Dict Int) (k : String) (q : Int) (k1 : String) :
    lookupD (addEntry m k q) k1 =
      lookupD m k1 + (if k = k1 then q else 0) := by
  induction m with
  | nil =>
      by_cases h : k = k1
      · subst h; simp [addEntry, lookupD, List.lookup_cons]
      · have hb : (k1 == k) = false := beq_eq_false_iff_ne.2 (Ne.symm h)
        simp [addEntry, lookupD, List.lookup_cons, hb, h]
  | cons p rest ih =>
      obtain ⟨k2, v2⟩ := p
      by_cases h2 : k2 = k
      · subst h2
        by_cases h1 : k2 = k1
        · subst h1; simp [addEntry, lookupD, List.lookup_cons]
        · have hb : (k1 == k2) = false := beq_eq_false_iff_ne.2 (Ne.symm h1)
          simp [addEntry, lookupD, List.lookup_cons, hb, h1]
      · have hb2 : (k2 == k) = false := beq_eq_false_iff_ne.2 h2
        by_cases h1 : k1 = k2
        · subst h1
          have hne : ¬ k = k1 := fun e => h2 e.symm
          simp [addEntry, lookupD, List.lookup_cons, hb2, hne]
        · have hb1 : (k1 == k2) = false := beq_eq_false_iff_ne.2 h1
          have := ih
          simp only [lookupD, List.lookup_cons, hb1] at this ⊢
          simpa [addEntry, hb2, List.lookup_cons, hb1] using this

theorem sumKey_nil (k : String) : sumKey [] k = 0 := rfl

theorem sumKey_cons (p : String × Int) (l : Dict Int) (k : String) :
    sumKey (p :: l) k = (if p.1 = k then p.2 else 0) + sumKey l k := by
  simp [sumKey]

theorem sumKey_eq_zero_of_not_mem (m : Dict Int) (k : String)
    (h : k ∉ m.map Prod.fst) : sumKey m k = 0 := by
  induction m with
  | nil => rfl
  | cons p rest ih =>
      simp only [List.map_cons, List.mem_cons, not_or] at h
      have hp : ¬ p.1 = k := fun e => h.1 e.symm
      simp [sumKey_cons, hp, ih h.2]

theorem lookupD_eq_sumKey_of_nodup (m : Dict Int) (k : String)
    (h : (m.map Prod.fst).Nodup) : lookupD m k = sumKey m k := by
  induction m with
  | nil => rfl
  | cons p rest ih =>
      obtain ⟨k2, v2⟩ := p
      simp only [List.map_cons, List.nodup_cons] at h
      by_cases h2 : k2 = k
      · subst h2
        have : sumKey rest k2 = 0 := sumKey_eq_zero_of_not_mem rest k2 h.1
        simp [lookupD, List.lookup_cons, sumKey_cons, this]
      · have hb : (k == k2) = false := by
          simp only [beq_eq_false_iff_ne, ne_eq]
          exact fun e => h2 e.symm
        simp only [sumKey_cons, h2, if_false, zero_add]
        simpa [lookupD, List.lookup_cons, hb] using ih h.2

theorem lookupD_foldl_addEntry (l : Dict Int) :
    ∀ (m : Dict Int) (k : String),
      lookupD (l.foldl (fun m p => addEntry m p.1 p.2) m) k
        = lookupD m k + sumKey l k := by
  induction l with
  | nil => intro m k; simp [sumKey_nil]
  | cons p rest ih =>
      intro m k
      simp only [List.foldl_cons]
      rw [ih, lookupD_addEntry, sumKey_cons, add_assoc]

theorem mem_keys_addEntry (m : Dict Int) (k k1 : String) (q : Int) :
    k1 ∈ (addEntry m k q).map Prod.fst ↔ k1 = k ∨ k1 ∈ m.map Prod.fst := by
  induction m with
  | nil => simp [addEntry]
  | cons p rest ih =>
      obtain ⟨k2, v2⟩ := p
      by_cases h2 : k2 = k
      · subst h2
        simp only [addEntry, beq_self_eq_true, if_true, List.map_cons,
          List.mem_cons]
        tauto
      · have hb2 : (k2 == k) = false := beq_eq_false_iff_ne.2 h2
        simp only [addEntry, hb2, Bool.false_eq_true, if_false, List.map_cons,
          List.mem_cons, ih]
        tauto

theorem mem_keys_foldl_addEntry (l : Dict Int) :
    ∀ (m : Dict Int) (k : String),
      k ∈ (l.foldl (fun m p => addEntry m p.1 p.2) m).map Prod.fst ↔
        k ∈ m.map Prod.fst ∨ k ∈ l.map Prod.fst := by
  induction l with
  | nil => intro m k; simp
  | cons p rest ih =>
      intro m k
      simp only [List.foldl_cons, ih, mem_keys_addEntry, List.map_cons,
        List.mem_cons]
      tauto

/-! ### `merge_supplies` lemmas -/

theorem lookupD_merge_fold (L : List Office) :
    ∀ (m : Dict Int) (k : String),
      lookupD
        (L.foldl
          (fun merged o =>
            o.get_supplies.foldl (fun m p => addEntry m p.1 p.2) merged)
          m) k
        = lookupD m k + (L.map fun o => sumKey o.supplies k).sum := by
  induction L with
  | nil => intro m k; simp
  | cons o rest ih =>
      intro m k
      simp only [List.foldl_cons]
      rw [ih, lookupD_foldl_addEntry, List.map_cons, List.sum_cons, add_assoc]
      rfl

theorem lookupD_merge (s : SmartShoppingList) (k : String) :
    lookupD s.merge_supplies k
      = (s.offices.map fun o => sumKey o.supplies k).sum := by
  have h := lookupD_merge_fold s.offices [] k
  simpa [SmartShoppingList.merge_supplies, lookupD] using h

theorem mem_keys_merge_fold (L : List Office) :
    ∀ (m : Dict Int) (k : String),
      k ∈ (L.foldl
          (fun merged o =>
            o.get_supplies.foldl (fun m p => addEntry m p.1 p.2) merged)
          m).map Prod.fst ↔
        k ∈ m.map Prod.fst ∨ ∃ o ∈ L, k ∈ o.supplies.map Prod.fst := by
  induction L with
  | nil => intro m k; simp
  | cons o rest ih =>
      intro m k
      simp only [List.foldl_cons, ih, mem_keys_foldl_addEntry,
        List.mem_cons]
      constructor
      · rintro (h | h)
        · rcases h with h | h
          · exact Or.inl h
          · exact Or.inr ⟨o, Or.inl rfl, h⟩
        · rcases h with ⟨o1, ho1, h⟩
          exact Or.inr ⟨o1, Or.inr ho1, h⟩
      · rintro (h | ⟨o1, ho1 | ho1, h⟩)
        · exact Or.inl (Or.inl h)
        · subst ho1; exact Or.inl (Or.inr h)
        · exact Or.inr ⟨o1, ho1, h⟩

theorem mem_keys_merge (s : SmartShoppingList) (k : String) :
    k ∈ s.merge_supplies.map Prod.fst ↔
      ∃ o ∈ s.offices, k ∈ o.supplies.map Prod.fst := by
  have h := mem_keys_merge_fold s.offices [] k
  simpa [SmartShoppingList.merge_supplies] using h

theorem merge_fold_of_all_empty (L : List Office) :
    ∀ (m : Dict Int), (∀ o ∈ L, o.supplies = []) →
      L.foldl
        (fun merged o =>
          o.get_supplies.foldl (fun m p => addEntry m p.1 p.2) merged)
        m = m := by
  induction L with
  | nil => intro m _; rfl
  | cons o rest ih =>
      intro m h
      have ho : o.supplies = [] := h o (List.mem_cons_self o rest)
      simp only [List.foldl_cons, Office.get_supplies, ho, List.foldl_nil]
      exact ih m fun o1 ho1 => h o1 (List.mem_cons_of_mem o ho1)

/-! ### `calculate_store_total` characterization -/

@[simp] theorem finVal_fin (q : ℚ) : finVal (PyFloat.fin q) = q := rfl

theorem calc_foldl (store : Store) (sl : Dict Int) :
    ∀ (t : ℚ) (u : List String),
      sl.foldl (SmartShoppingList.calcStep store) (t, u)
        = (t + specTotal store sl, u ++ specMissing store sl) := by
  induction sl with
  | nil => intro t u; simp [specTotal, specMissing]
  | cons p rest ih =>
      intro t u
      cases hp : store.get_price p.1 with
      | fin q =>
          have hb : (store.get_price p.1 == PyFloat.inf) = false := by
            simp [hp]
          simp only [List.foldl_cons, SmartShoppingList.calcStep, hp]
          rw [ih]
          simp [specTotal, specMissing, List.filter_cons, hb, hp, add_assoc]
      | inf =>
          have hb : (store.get_price p.1 == PyFloat.inf) = true := by
            simp [hp]
          simp only [List.foldl_cons, SmartShoppingList.calcStep, hp]
          rw [ih]
          simp [specTotal, specMissing, List.filter_cons, hb]

theorem calculate_store_total_eq (store : Store) (sl : Dict Int) :
    SmartShoppingList.calculate_store_total store sl
      = (specTotal store sl, specMissing store sl) := by
  have h := calc_foldl store sl 0 []
  simpa [SmartShoppingList.calculate_store_total] using h

theorem mem_specMissing_iff (store : Store) (sl : Dict Int) (item : String) :
    item ∈ specMissing store sl ↔
      item ∈ sl.map Prod.fst ∧ store.get_price item = PyFloat.inf := by
  simp only [specMissing, List.mem_map, List.mem_filter]
  constructor
  · rintro ⟨p, ⟨hp, hinf⟩, rfl⟩
    exact ⟨⟨p, hp, rfl⟩, by simpa using hinf⟩
  · rintro ⟨⟨p, hp, rfl⟩, hinf⟩
    exact ⟨p, ⟨hp, by simp [hinf]⟩, rfl⟩

/-! ### `find_cheapest_store` machinery -/

theorem goodStep (merged : Dict Int) (l : List Store)
    (acc : Option Store × PyFloat) (st : Store) (h : Good merged l acc) :
    Good merged (l ++ [st]) (SmartShoppingList.cheapStep merged acc st) := by
  obtain ⟨ob, f⟩ := acc
  cases ob with
  | none =>
      cases f with
      | fin tb => exact h.elim
      | inf =>
          replace h : ∀ s1 ∈ l, ¬ feasible merged s1 := h
          by_cases hfeas :
              (SmartShoppingList.calculate_store_total st merged).2 = []
          · have hcond :
                (SmartShoppingList.calculate_store_total st merged).2 = [] ∧
                PyFloat.lt
                  (PyFloat.fin
                    (SmartShoppingList.calculate_store_total st merged).1)
                  PyFloat.inf := ⟨hfeas, trivial⟩
            simp only [SmartShoppingList.cheapStep, if_pos hcond]
            refine ⟨hfeas, rfl, l, [], by simp, ?_, by intro s1 hs1; simp at hs1⟩
            intro s1 hs1 hf1
            exact absurd hf1 (h s1 hs1)
          · have hcond :
                ¬ ((SmartShoppingList.calculate_store_total st merged).2 = [] ∧
                  PyFloat.lt
                    (PyFloat.fin
                      (SmartShoppingList.calculate_store_total st merged).1)
                    PyFloat.inf) := fun hc => hfeas hc.1
            simp only [SmartShoppingList.cheapStep, if_neg hcond]
            intro s1 hs1
            rcases List.mem_append.1 hs1 with h1 | h1
            · exact h s1 h1
            · have : s1 = st := by simpa using h1
              subst this
              exact fun hf => hfeas hf
  | some b =>
      cases f with
      | inf => exact h.elim
      | fin tb =>
          obtain ⟨hfb, htb, l1, l2, hdec, hbef, haft⟩ := h
          by_cases hc :
              (SmartShoppingList.calculate_store_total st merged).2 = [] ∧
              PyFloat.lt
                (PyFloat.fin
                  (SmartShoppingList.calculate_store_total st merged).1)
                (PyFloat.fin tb)
          · have hlt : (SmartShoppingList.calculate_store_total st merged).1
                < tb := hc.2
            simp only [SmartShoppingList.cheapStep, if_pos hc]
            refine ⟨hc.1, rfl, l, [], by simp, ?_,
              by intro s1 hs1; simp at hs1⟩
            intro s1 hs1 hf1
            have hlt2 : storeTotal merged st < storeTotal merged b := by
              rw [← htb]; exact hlt
            rw [hdec] at hs1
            rcases List.mem_append.1 hs1 with h1 | h1
            · exact lt_trans hlt2 (hbef s1 h1 hf1)
            · rcases List.mem_cons.1 h1 with h1 | h1
              · subst h1; exact hlt2
              · exact lt_of_lt_of_le hlt2 (haft s1 h1 hf1)
          · simp only [SmartShoppingList.cheapStep, if_neg hc]
            refine ⟨hfb, htb, l1, l2 ++ [st], by rw [hdec]; simp, hbef, ?_⟩
            intro s1 hs1 hf1
            rcases List.mem_append.1 hs1 with h1 | h1
            · exact haft s1 h1 hf1
            · have : s1 = st := by simpa using h1
              subst this
              have hnlt : ¬ (SmartShoppingList.calculate_store_total s1
                  merged).1 < tb := fun hl => hc ⟨hf1, hl⟩
              have := not_lt.1 hnlt
              rw [htb] at this
              exact this

theorem goodFoldl (merged : Dict Int) (L : List Store) :
    ∀ (l : List Store) (acc : Option Store × PyFloat), Good merged l acc →
      Good merged (l ++ L)
        (L.foldl (SmartShoppingList.cheapStep merged) acc) := by
  induction L with
  | nil => intro l acc h; simpa using h
  | cons st rest ih =>
      intro l acc h
      have h1 := goodStep merged l acc st h
      have h2 := ih (l ++ [st]) _ h1
      simpa [List.append_assoc] using h2

/-- The accumulator at the end of the selection loop of
`find_cheapest_store` satisfies the loop invariant for the whole store
list. -/
theorem goodFind (s : SmartShoppingList) :
    Good s.merge_supplies s.stores
      (s.stores.foldl (SmartShoppingList.cheapStep s.merge_supplies)
        (none, PyFloat.inf)) := by
  have h0 : Good s.merge_supplies [] (none, PyFloat.inf) := by
    intro st hst; simp at hst
  simpa using goodFoldl s.merge_supplies s.stores [] _ h0

/-- On a non-empty demand with at least one store, `find_cheapest_store`
returns the selection loop's accumulator together with the merged
demand. -/
theorem find_cheapest_store_eq (s : SmartShoppingList)
    (hm : s.merge_supplies ≠ []) (hs : s.stores ≠ []) :
    s.find_cheapest_store
      = ((s.stores.foldl (SmartShoppingList.cheapStep s.merge_supplies)
            (none, PyFloat.inf)).1,
         (s.stores.foldl (SmartShoppingList.cheapStep s.merge_supplies)
            (none, PyFloat.inf)).2,
         s.merge_supplies) := by
  simp only [SmartShoppingList.find_cheapest_store]
  rw [if_neg hm, if_neg hs]

/-! ### Claims -/

/-- C1: whenever the merged demand is non-empty and at least one
registered store is fully feasible against it, `find_cheapest_store`
returns a feasible store whose `calculate_store_total` total on the
merged demand is minimal among all feasible stores — the earliest in
insertion order among those tied at the minimum — together with that
total and the merged demand mapping. -/
theorem find_cheapest_store_returns_earliest_minimum
    (s : SmartShoppingList) (hm : s.merge_supplies ≠ [])
    (hex : ∃ st ∈ s.stores, feasible s.merge_supplies st) :
    ∃ b l1 l2,
      s.find_cheapest_store
        = (some b, PyFloat.fin (storeTotal s.merge_supplies b),
           s.merge_supplies) ∧
      s.stores = l1 ++ b :: l2 ∧
      feasible s.merge_supplies b ∧
      (∀ st ∈ s.stores, feasible s.merge_supplies st →
        storeTotal s.merge_supplies b ≤ storeTotal s.merge_supplies st) ∧
      (∀ st ∈ l1, feasible s.merge_supplies st →
        storeTotal s.merge_supplies b < storeTotal s.merge_supplies st) := by
  obtain ⟨st0, hst0, hf0⟩ := hex
  have hs : s.stores ≠ [] := by
    intro h; rw [h] at hst0; exact absurd hst0 (List.not_mem_nil st0)
  have hg := goodFind s
  have hE := find_cheapest_store_eq s hm hs
  revert hg hE
  generalize s.stores.foldl (SmartShoppingList.cheapStep s.merge_supplies)
      (none, PyFloat.inf) = R
  obtain ⟨ob, f⟩ := R
  intro hg hE
  cases ob with
  | none =>
      cases f with
      | fin tb => exact hg.elim
      | inf => exact absurd hf0 (hg st0 hst0)
  | some b =>
      cases f with
      | inf => exact hg.elim
      | fin tb =>
          obtain ⟨hfb, htb, l1, l2, hdec, hbef, haft⟩ := hg
          refine ⟨b, l1, l2, ?_, hdec, hfb, ?_, hbef⟩
          · rw [hE, htb]
          · intro st1 hst1 hf1
            rw [hdec] at hst1
            rcases List.mem_append.1 hst1 with h1 | h1
            · exact le_of_lt (hbef st1 h1 hf1)
            · rcases List.mem_cons.1 h1 with h1 | h1
              · subst h1; exact le_refl _
              · exact haft st1 h1 hf1

/-- Witness for C1 on the spec's worked example: StoreA (total 45)
beats StoreB (total 50). -/
theorem find_cheapest_store_returns_earliest_minimum_witness :
    ∃ b l1 l2,
      exList.find_cheapest_store
        = (some b, PyFloat.fin (storeTotal exList.merge_supplies b),
           exList.merge_supplies) ∧
      exList.stores = l1 ++ b :: l2 ∧
      feasible exList.merge_supplies b ∧
      (∀ st ∈ exList.stores, feasible exList.merge_supplies st →
        storeTotal exList.merge_supplies b
          ≤ storeTotal exList.merge_supplies st) ∧
      (∀ st ∈ l1, feasible exList.merge_supplies st →
        storeTotal exList.merge_supplies b
          < storeTotal exList.merge_supplies st) :=
  find_cheapest_store_returns_earliest_minimum exList
    (by with_unfolding_all decide)
    ⟨exStoreA, by with_unfolding_all decide, by with_unfolding_all decide⟩

/-- C4: `find_cheapest_store` returns `(none, 0.0, empty)` on empty
merged demand, `(none, 0.0, merged)` on non-empty demand with no
stores, and `(none, +inf, merged)` when demand and store list are
non-empty but every store misses at least one item. -/
theorem find_cheapest_store_degenerate_cases (s : SmartShoppingList) :
    (s.merge_supplies = [] →
      s.find_cheapest_store = (none, PyFloat.fin 0, [])) ∧
    (s.merge_supplies ≠ [] → s.stores = [] →
      s.find_cheapest_store = (none, PyFloat.fin 0, s.merge_supplies)) ∧
    (s.merge_supplies ≠ [] → s.stores ≠ [] →
      (∀ st ∈ s.stores, ¬ feasible s.merge_supplies st) →
      s.find_cheapest_store = (none, PyFloat.inf, s.merge_supplies)) := by
  refine ⟨?_, ?_, ?_⟩
  · intro hm
    simp [SmartShoppingList.find_cheapest_store, hm]
  · intro hm hs
    simp only [SmartShoppingList.find_cheapest_store]
    rw [if_neg hm, if_pos hs]
  · intro hm hs hall
    have hg := goodFind s
    have hE := find_cheapest_store_eq s hm hs
    revert hg hE
    generalize s.stores.foldl (SmartShoppingList.cheapStep s.merge_supplies)
        (none, PyFloat.inf) = R
    obtain ⟨ob, f⟩ := R
    intro hg hE
    cases ob with
    | some b =>
        cases f with
        | inf => exact hg.elim
        | fin tb =>
            obtain ⟨hfb, _, l1, l2, hdec, _, _⟩ := hg
            have hb : b ∈ s.stores := by
              rw [hdec]
              exact List.mem_append_right l1 (List.mem_cons_self b l2)
            exact absurd hfb (hall b hb)
    | none =>
        cases f with
        | fin tb => exact hg.elim
        | inf => exact hE

/-- Witness for C4: the three degenerate cases at concrete states. -/
theorem find_cheapest_store_degenerate_cases_witness :
    SmartShoppingList.mk0.find_cheapest_store = (none, PyFloat.fin 0, []) ∧
    exNoStores.find_cheapest_store
      = (none, PyFloat.fin 0, exNoStores.merge_supplies) ∧
    exInfeasible.find_cheapest_store
      = (none, PyFloat.inf, exInfeasible.merge_supplies) :=
  ⟨(find_cheapest_store_degenerate_cases SmartShoppingList.mk0).1 rfl,
   (find_cheapest_store_degenerate_cases exNoStores).2.1 (by decide) rfl,
   (find_cheapest_store_degenerate_cases exInfeasible).2.2 (by decide)
     (by decide) (by decide)⟩

/-- C2: every item's merged quantity is the sum of that item's stored
quantity across all registered offices; the result is independent of
the order in which offices were added; with no offices, or only empty
demands, the merged mapping is empty. -/
theorem merge_supplies_is_per_item_sum (s : SmartShoppingList)
    (h : ∀ o ∈ s.offices, (o.supplies.map Prod.fst).Nodup) :
    (∀ item, lookupD s.merge_supplies item
        = (s.offices.map fun o => lookupD o.supplies item).sum) ∧
    (∀ t : SmartShoppingList, s.offices.Perm t.offices →
        ∀ item, lookupD t.merge_supplies item
          = lookupD s.merge_supplies item) ∧
    ((∀ o ∈ s.offices, o.supplies = []) → s.merge_supplies = []) := by
  refine ⟨?_, ?_, ?_⟩
  · intro item
    rw [lookupD_merge]
    exact congrArg List.sum
      (List.map_congr_left fun o ho =>
        (lookupD_eq_sumKey_of_nodup o.supplies item (h o ho)).symm)
  · intro t hperm item
    rw [lookupD_merge, lookupD_merge]
    exact ((hperm.map fun o => sumKey o.supplies item).sum_eq).symm
  · intro hall
    have he := merge_fold_of_all_empty s.offices [] hall
    simpa [SmartShoppingList.merge_supplies] using he

/-- Witness for C2 at the worked example (Pens: 10 + 5 = 15). -/
theorem merge_supplies_is_per_item_sum_witness :
    lookupD exList.merge_supplies "Pens"
      = (exList.offices.map fun o => lookupD o.supplies "Pens").sum :=
  (merge_supplies_is_per_item_sum exList (by decide)).1 "Pens"

/-- C3: `calculate_store_total` returns exactly the pair of the sum of
`price * quantity` over the priced demanded items and the ordered list
of demanded items whose lookup yields the sentinel; an item is in the
missing list iff it is demanded and unpriced, so no item both
contributes to the total and is reported missing. -/
theorem calculate_store_total_partitions (store : Store) (sl : Dict Int) :
    SmartShoppingList.calculate_store_total store sl
      = (specTotal store sl, specMissing store sl) ∧
    (∀ item, item ∈ specMissing store sl ↔
      item ∈ sl.map Prod.fst ∧ store.get_price item = PyFloat.inf) :=
  ⟨calculate_store_total_eq store sl,
   fun item => mem_specMissing_iff store sl item⟩

/-- C5 counterexample: `set_price` may store the infinity sentinel
itself, and such an item is a key of the price mapping yet is reported
missing by `calculate_store_total`. -/
theorem priced_item_never_missing_counterexample :
    (List.lookup "Pens" exInfPriceStore.prices).isSome = true ∧
    "Pens" ∈ (SmartShoppingList.calculate_store_total exInfPriceStore
        [("Pens", 1)]).2 := by
  with_unfolding_all decide

theorem get_price_inf_iff (st : Store) (item : String) :
    st.get_price item = PyFloat.inf ↔
      (List.lookup item st.prices = none ∨
       List.lookup item st.prices = some PyFloat.inf) := by
  unfold Store.get_price
  cases hl : List.lookup item st.prices with
  | none => simp
  | some v => cases v <;> simp

/-- C5 (amended): the missing list consists exactly of the demanded
items whose key is absent from the store's price mapping or whose
stored price is the infinity sentinel; an item stored with a finite
price is never reported missing. -/
theorem missing_iff_absent_or_sentinel_priced (store : Store)
    (sl : Dict Int) :
    ∀ item,
      item ∈ (SmartShoppingList.calculate_store_total store sl).2 ↔
        item ∈ sl.map Prod.fst ∧
          (List.lookup item store.prices = none ∨
           List.lookup item store.prices = some PyFloat.inf) := by
  intro item
  rw [calculate_store_total_eq]
  simp only [mem_specMissing_iff, get_price_inf_iff]

/-- C7: `get_price` returns the stored price when present and the
infinity sentinel when absent (a total function: it cannot fail). -/
theorem get_price_stored_or_sentinel (st : Store) (item : String) :
    (∀ v, List.lookup item st.prices = some v → st.get_price item = v) ∧
    (List.lookup item st.prices = none →
      st.get_price item = PyFloat.inf) := by
  constructor
  · intro v hv
    unfold Store.get_price
    rw [hv]
    rfl
  · intro hv
    unfold Store.get_price
    rw [hv]
    rfl

/-- Witness for C7: a stored price and an absent item. -/
theorem get_price_stored_or_sentinel_witness :
    exStoreA.get_price "Pens" = PyFloat.fin 1 ∧
    exStoreA.get_price "Gadget" = PyFloat.inf :=
  ⟨(get_price_stored_or_sentinel exStoreA "Pens").1 (PyFloat.fin 1)
      (by with_unfolding_all decide),
   (get_price_stored_or_sentinel exStoreA "Gadget").2
      (by with_unfolding_all decide)⟩

/-- C8: `add_item` adds any quantity (zero or negative included) to the
stored one, `set_price` stores any price, and negative values propagate
to a negative merged quantity and a negative store total. -/
theorem mutators_accept_any_sign :
    (∀ (o : Office) (item : String) (q : Int),
      lookupD (o.add_item item q).supplies item
        = lookupD o.supplies item + q) ∧
    (∀ (st : Store) (item : String) (p : PyFloat),
      List.lookup item (st.set_price item p).prices = some p) ∧
    (∃ s : SmartShoppingList, ∃ st ∈ s.stores,
      lookupD s.merge_supplies "Pens" < 0 ∧
      storeTotal s.merge_supplies st < 0) := by
  refine ⟨?_, ?_, exNegList, exNegStore, ?_, ?_, ?_⟩
  · intro o item q
    have he := lookupD_addEntry o.supplies item q item
    simpa [Office.add_item] using he
  · intro st item p
    have he := lookup_setEntry st.prices item item p
    simpa [Store.set_price] using he
  · with_unfolding_all decide
  · with_unfolding_all decide
  · with_unfolding_all decide

theorem lookup_foldl_setEntry (merged : Dict Int) (L : List Store) :
    ∀ (comp : Dict SmartShoppingList.CompEntry) (k : String),
      List.lookup k
        (L.foldl
          (fun comparison store =>
            let r := SmartShoppingList.calculate_store_total store merged
            setEntry comparison store.name
              ⟨if r.2 = [] then PyFloat.fin r.1 else PyFloat.inf, r.2⟩)
          comp)
        = ((L.reverse.find? fun st => st.name == k).map
            (compEntryOf merged)).or (List.lookup k comp) := by
  induction L with
  | nil => intro comp k; simp
  | cons st rest ih =>
      intro comp k
      simp only [List.foldl_cons, List.reverse_cons, List.find?_append, ih]
      cases hf : rest.reverse.find? (fun st1 => st1.name == k) with
      | some y => simp [hf]
      | none =>
          simp only [hf, Option.map_none', Option.none_or]
          rw [lookup_setEntry]
          by_cases hn : st.name = k
          · have hb : (st.name == k) = true := by simp [hn]
            simp [List.find?, hb, hn, compEntryOf]
          · have hb : (st.name == k) = false := by simp [hn]
            simp [List.find?, hb, hn]

/-- C6: `get_price_comparison` is keyed by store name; the entry found
under a name is the evaluation (real total on empty missing list, the
infinity sentinel otherwise, plus the missing list) of the
last-registered store with that name, so duplicate-named stores are
silently overwritten by later ones; every registered store's name has
an entry. -/
theorem get_price_comparison_keyed_by_name (s : SmartShoppingList) :
    (∀ k, List.lookup k s.get_price_comparison
        = ((s.stores.reverse.find? fun st => st.name == k).map
            (compEntryOf s.merge_supplies))) ∧
    (∀ st ∈ s.stores,
      (List.lookup st.name s.get_price_comparison).isSome = true) := by
  have hmain : ∀ k, List.lookup k s.get_price_comparison
      = ((s.stores.reverse.find? fun st => st.name == k).map
          (compEntryOf s.merge_supplies)) := by
    intro k
    have he := lookup_foldl_setEntry s.merge_supplies s.stores [] k
    simpa [SmartShoppingList.get_price_comparison] using he
  refine ⟨hmain, ?_⟩
  intro st hst
  rw [hmain st.name]
  have hfind : (s.stores.reverse.find? fun st1 => st1.name == st.name).isSome
      = true := by
    rw [List.find?_isSome]
    exact ⟨st, List.mem_reverse.2 hst, by simp⟩
  cases hf : s.stores.reverse.find? fun st1 => st1.name == st.name with
  | none => rw [hf] at hfind; simp at hfind
  | some y => simp

/-- Witness for C6: entries of the worked example's comparison table. -/
theorem get_price_comparison_keyed_by_name_witness :
    List.lookup "StoreA" exList.get_price_comparison
      = some (compEntryOf exList.merge_supplies exStoreA) ∧
    (List.lookup "StoreB" exList.get_price_comparison).isSome = true :=
  ⟨((get_price_comparison_keyed_by_name exList).1 "StoreA").trans
      (by with_unfolding_all decide),
   (get_price_comparison_keyed_by_name exList).2 exStoreB
      (by with_unfolding_all decide)⟩

/-! ### Heap-model lemmas -/

theorem DictHeap.read_write_self (h : DictHeap) (r : Nat) (m : Dict Int) :
    (h.write r m).read r = m := by
  unfold DictHeap.read DictHeap.write
  rw [lookup_setEntry]
  simp

theorem DictHeap.read_write_ne (h : DictHeap) (r r1 : Nat) (m : Dict Int)
    (hne : r ≠ r1) : (h.write r m).read r1 = h.read r1 := by
  unfold DictHeap.read DictHeap.write
  rw [lookup_setEntry, if_neg hne]

theorem DictHeap.lookup_fresh_none (h : DictHeap) (hwf : h.WF) :
    List.lookup h.fresh h.cells = none := by
  rw [List.lookup_eq_none_iff]
  intro p hp
  have hlt := hwf p hp
  simp only [bne_iff_ne, ne_eq]
  omega

theorem DictHeap.read_alloc_new (h : DictHeap) (m : Dict Int) (hwf : h.WF) :
    (h.alloc m).2.read (h.alloc m).1 = m := by
  unfold DictHeap.alloc DictHeap.read
  rw [List.lookup_append, DictHeap.lookup_fresh_none h hwf]
  simp [List.lookup_cons]

theorem DictHeap.read_alloc_old (h : DictHeap) (m : Dict Int) (r : Nat)
    (hr : r ≠ h.fresh) : (h.alloc m).2.read r = h.read r := by
  unfold DictHeap.alloc DictHeap.read
  rw [List.lookup_append]
  have hb : (r == h.fresh) = false := beq_eq_false_iff_ne.2 hr
  have hnone : List.lookup r [(h.fresh, m)] = none := by
    simp [List.lookup_cons, hb]
  rw [hnone, Option.or_none]

/-- C9: the queries do not mutate program state, and returned mappings
are snapshot copies.  The pure embedding expresses the queries as pure
functions of the state; the snapshot/aliasing half is verified in the
heap model: `get_supplies` returns a freshly allocated dict object
distinct from the office's own dict, holding the same entries; writing
through the returned object does not change the office's dict; writing
through the office (`add_item`) does not change the returned snapshot;
and `merge_supplies` is recomputed from the current offices on every
request (adding an office is reflected in the next merge). -/
theorem queries_mutate_no_state_and_return_snapshots (h : DictHeap)
    (o : OfficeRef) (hwf : h.WF) (ho : o.supplies < h.fresh) :
    (o.get_suppliesH h).1 ≠ o.supplies ∧
    (o.get_suppliesH h).2.read (o.get_suppliesH h).1 = h.read o.supplies ∧
    (o.get_suppliesH h).2.read o.supplies = h.read o.supplies ∧
    (∀ (k : String) (v : Int),
      ((o.get_suppliesH h).2.setItem (o.get_suppliesH h).1 k v).read
          o.supplies
        = h.read o.supplies) ∧
    (∀ (item : String) (q : Int),
      (o.add_itemH (o.get_suppliesH h).2 item q).read (o.get_suppliesH h).1
        = h.read o.supplies) ∧
    (∀ (s : SmartShoppingList) (o1 : Office) (k : String),
      lookupD (s.add_office o1).merge_supplies k
        = lookupD s.merge_supplies k + sumKey o1.supplies k) := by
  have hfr : (o.get_suppliesH h).1 = h.fresh := rfl
  have hne : o.supplies ≠ h.fresh := by omega
  refine ⟨?_, ?_, ?_, ?_, ?_, ?_⟩
  · rw [hfr]
    omega
  · exact DictHeap.read_alloc_new h _ hwf
  · exact DictHeap.read_alloc_old h _ o.supplies hne
  · intro k v
    unfold DictHeap.setItem
    rw [DictHeap.read_write_ne _ _ _ _
      (by rw [hfr]; omega : (o.get_suppliesH h).1 ≠ o.supplies)]
    exact DictHeap.read_alloc_old h _ o.supplies hne
  · intro item q
    unfold OfficeRef.add_itemH
    rw [DictHeap.read_write_ne _ _ _ _
      (by rw [hfr]; omega : o.supplies ≠ (o.get_suppliesH h).1)]
    exact DictHeap.read_alloc_new h _ hwf
  · intro s o1 k
    rw [lookupD_merge, lookupD_merge]
    simp [SmartShoppingList.add_office]

/-- Witness for C9 on a concrete two-cell heap. -/
theorem queries_mutate_no_state_and_return_snapshots_witness :
    (exOfficeRef.get_suppliesH exHeap).1 ≠ exOfficeRef.supplies ∧
    (exOfficeRef.add_itemH (exOfficeRef.get_suppliesH exHeap).2 "Pens" 7).read
        (exOfficeRef.get_suppliesH exHeap).1
      = exHeap.read exOfficeRef.supplies :=
  ⟨(queries_mutate_no_state_and_return_snapshots exHeap exOfficeRef
      (by decide) (by decide)).1,
   (queries_mutate_no_state_and_return_snapshots exHeap exOfficeRef
      (by decide) (by decide)).2.2.2.2.1 "Pens" 7⟩

/-- C10: after `add_item(item, q)` — `q = 0` included — the item is a
key of `get_supplies`; if such an office is registered, the item is a
key of the merged demand; a store whose price mapping lacks the item
reports it missing on the merged demand, hence has a non-empty missing
list, and is therefore never the store returned by
`find_cheapest_store`. -/
theorem zero_quantity_item_blocks_store (o : Office) (item : String)
    (q : Int) (s : SmartShoppingList) (st : Store)
    (ho : o.add_item item q ∈ s.offices)
    (hst : List.lookup item st.prices = none) :
    item ∈ (o.add_item item q).get_supplies.map Prod.fst ∧
    item ∈ s.merge_supplies.map Prod.fst ∧
    item ∈ (SmartShoppingList.calculate_store_total st s.merge_supplies).2 ∧
    (SmartShoppingList.calculate_store_total st s.merge_supplies).2 ≠ [] ∧
    s.find_cheapest_store.1 ≠ some st := by
  have h1 : item ∈ (o.add_item item q).get_supplies.map Prod.fst := by
    simp only [Office.get_supplies, Office.add_item]
    exact (mem_keys_addEntry o.supplies item item q).2 (Or.inl rfl)
  have h2 : item ∈ s.merge_supplies.map Prod.fst :=
    (mem_keys_merge s item).2 ⟨o.add_item item q, ho, h1⟩
  have hpinf : st.get_price item = PyFloat.inf := by
    unfold Store.get_price
    rw [hst]
    rfl
  have h3 : item ∈
      (SmartShoppingList.calculate_store_total st s.merge_supplies).2 := by
    rw [calculate_store_total_eq]
    exact (mem_specMissing_iff st s.merge_supplies item).2 ⟨h2, hpinf⟩
  have h4 :
      (SmartShoppingList.calculate_store_total st s.merge_supplies).2
        ≠ [] := by
    intro he
    rw [he] at h3
    exact absurd h3 (List.not_mem_nil item)
  refine ⟨h1, h2, h3, h4, ?_⟩
  by_cases hm : s.merge_supplies = []
  · simp [SmartShoppingList.find_cheapest_store, hm]
  · by_cases hs : s.stores = []
    · simp only [SmartShoppingList.find_cheapest_store]
      rw [if_neg hm, if_pos hs]
      simp
    · have hg := goodFind s
      have hE := find_cheapest_store_eq s hm hs
      revert hg hE
      generalize s.stores.foldl
        (SmartShoppingList.cheapStep s.merge_supplies)
        (none, PyFloat.inf) = R
      obtain ⟨ob, f⟩ := R
      intro hg hE
      cases ob with
      | none =>
          cases f with
          | fin tb => exact hg.elim
          | inf => rw [hE]; simp
      | some b =>
          cases f with
          | inf => exact hg.elim
          | fin tb =>
              obtain ⟨hfb, -, -, -, -, -, -⟩ := hg
              rw [hE]
              intro hbe
              have hb : b = st := Option.some.inj hbe
              exact h4 (hb ▸ hfb)

/-- Witness for C10: an item added with quantity `0` keeps a store that
does not price it from being selected. -/
theorem zero_quantity_item_blocks_store_witness :
    "Gadget" ∈ exZeroOffice.get_supplies.map Prod.fst ∧
    "Gadget" ∈ exZeroList.merge_supplies.map Prod.fst ∧
    "Gadget" ∈ (SmartShoppingList.calculate_store_total exStoreP
        exZeroList.merge_supplies).2 ∧
    (SmartShoppingList.calculate_store_total exStoreP
        exZeroList.merge_supplies).2 ≠ [] ∧
    exZeroList.find_cheapest_store.1 ≠ some exStoreP :=
  zero_quantity_item_blocks_store (Office.mk0 "Office Z") "Gadget" 0
    exZeroList exStoreP (by with_unfolding_all decide)
    (by with_unfolding_all decide)
